import Mathlib

/-!
# Verification of the colordna core pipeline

Shallow embedding of the colordna repository's core: the alphabet
classifiers and content-based format detector (package `parser`), the
styling engine (package `colorer`), and the per-line classification and
styling dispatch (`processLine` in package `cmd`).

Go strings are modelled as `List Char` (all behaviour the claims touch is
on ASCII content, where Go's byte indexing, `len`, and rune iteration
coincide with the character list). Go's `strings.ToUpper` is modelled by
ASCII uppercasing, with which it agrees on ASCII input.
-/

set_option autoImplicit false

/-- A Go string, modelled as a list of characters. -/
abbrev Str := List Char

/-- Convert a Lean string literal to the `Str` model. -/
def str (s : String) : Str := s.data

/-- ASCII uppercasing of one character (agrees with Go `strings.ToUpper`
on ASCII input). -/
def toUpperChar (c : Char) : Char :=
  if 'a' ≤ c ∧ c ≤ 'z' then Char.ofNat (c.toNat - 32) else c

/-- `strings.ToUpper`, characterwise on the model. -/
def toUpperStr (s : Str) : Str := s.map toUpperChar

/-- Go `strings.HasPrefix`. -/
def startsWith (s p : Str) : Bool := p.isPrefixOf s

/-- Go `strings.Count(line, "\t")`: the number of tab characters. -/
def countTab (s : Str) : Nat := s.countP (fun c => c = '\t')

/-- Go `strings.Split(s, sep)` for a one-character separator: fields
between occurrences of `sep`, empty fields kept, `split "" = [""]`. -/
def splitOnChar (sep : Char) : Str → List Str
  | [] => [[]]
  | c :: rest =>
    if c = sep then [] :: splitOnChar sep rest
    else
      match splitOnChar sep rest with
      | [] => [[c]]
      | f :: fs => (c :: f) :: fs

/-- Go `strings.Join(fields, sep)` for a separator string. -/
def intercalateStr (sep : Str) : List Str → Str
  | [] => []
  | [f] => f
  | f :: fs => f ++ sep ++ intercalateStr sep fs

/-! ## AlphabetClassifier (src/unnamed/part_000, package parser)

The package-level regular expressions `^[ATGCN]*$`, `^[AUGCN]*$`,
`^[ACDEFGHIKLMNPQRSTVWY]*$`, `^[!-~]*$` match a string iff every
character belongs to the class, so each becomes an `all` over a
character predicate. -/

/-- Character class of `dnaRegex` = `^[ATGCN]*$`. -/
def dnaChar (c : Char) : Bool :=
  c = 'A' || c = 'T' || c = 'G' || c = 'C' || c = 'N'

/-- Character class of `rnaRegex` = `^[AUGCN]*$`. -/
def rnaChar (c : Char) : Bool :=
  c = 'A' || c = 'U' || c = 'G' || c = 'C' || c = 'N'

/-- Character class of `proteinRegex` = `^[ACDEFGHIKLMNPQRSTVWY]*$`. -/
def proteinChar (c : Char) : Bool :=
  ['A', 'C', 'D', 'E', 'F', 'G', 'H', 'I', 'K', 'L',
   'M', 'N', 'P', 'Q', 'R', 'S', 'T', 'V', 'W', 'Y'].contains c

/-- Character class of `qualityRegex` = `^[!-~]*$`: printable ASCII,
code points 33 through 126. -/
def qualityChar (c : Char) : Bool :=
  33 ≤ c.toNat && c.toNat ≤ 126

/-- `dnaRegex.MatchString`. -/
def matchesDNA (s : Str) : Bool := s.all dnaChar

/-- `rnaRegex.MatchString`. -/
def matchesRNA (s : Str) : Bool := s.all rnaChar

/-- `proteinRegex.MatchString`. -/
def matchesProtein (s : Str) : Bool := s.all proteinChar

/-- `qualityRegex.MatchString`. -/
def matchesQuality (s : Str) : Bool := s.all qualityChar

/-- `parser.IsSequenceLine`: empty lines fail; otherwise the uppercased
line must match the DNA alphabet, the RNA alphabet, or (only when longer
than 10) the protein alphabet. -/
def IsSequenceLine (line : Str) : Bool :=
  if line.length = 0 then false
  else
    let upper := toUpperStr line
    if matchesDNA upper then true
    else if matchesRNA upper then true
    else if upper.length > 10 && matchesProtein upper then true
    else false

/-- `parser.IsQualityLine`: nonempty and every character printable ASCII. -/
def IsQualityLine (line : Str) : Bool :=
  if line.length = 0 then false
  else matchesQuality line

/-- `parser.IsDNASequence`. -/
def IsDNASequence (sequence : Str) : Bool :=
  if sequence.length = 0 then false
  else matchesDNA (toUpperStr sequence)

/-- `parser.IsRNASequence`. -/
def IsRNASequence (sequence : Str) : Bool :=
  if sequence.length = 0 then false
  else matchesRNA (toUpperStr sequence)

/-- `parser.IsProteinSequence`: nonempty and the uppercased string
matches the protein alphabet. Note: unlike the protein branch inside
`IsSequenceLine`, there is no length gate here. -/
def IsProteinSequence (sequence : Str) : Bool :=
  if sequence.length = 0 then false
  else matchesProtein (toUpperStr sequence)

/-! ## FormatDetector (src/unnamed/part_000) -/

/-- `parser.Format`. -/
inductive Format
  | unknown
  | fasta
  | fastq
  | sam
  | vcf
deriving DecidableEq, Repr

/-- The VCF loop of `DetectFormatFromContent`: some line starts with
`##fileformat=VCF`. -/
def hasVCFMarker (lines : List Str) : Bool :=
  lines.any fun line => startsWith line (str "##fileformat=VCF")

/-- One line's test in the SAM loop of `DetectFormatFromContent`. -/
def isSAMSignal (line : Str) : Bool :=
  startsWith line (str "@HD") || startsWith line (str "@SQ") ||
    startsWith line (str "@RG") ||
    (!startsWith line (str "@") && decide (10 ≤ countTab line))

/-- The SAM loop of `DetectFormatFromContent`: some line carries a SAM
header marker or is a non-`@` line with at least 10 tabs. -/
def hasSAMSignal (lines : List Str) : Bool :=
  lines.any isSAMSignal

/-- The FASTQ test of the scanning loop of `DetectFormatFromContent` at
index `i`: the line does not start with `>` (else branch), starts with
`@`, three further lines exist in the buffer, the line two later starts
with `+`, the line one later is a sequence line, the line three later is
a quality line, and sequence and quality have equal length. In the Go
source the bound appears twice (`i < len(lines)-3` and `i+3 < len(lines)`,
equivalent over the integers). -/
def fastqHeaderAt (lines : List Str) (i : Nat) : Bool :=
  !startsWith (lines.getD i []) (str ">") &&
  startsWith (lines.getD i []) (str "@") &&
  decide (i + 3 < lines.length) &&
  (startsWith (lines.getD (i + 2) []) (str "+") &&
   IsSequenceLine (lines.getD (i + 1) []) &&
   IsQualityLine (lines.getD (i + 3) []) &&
   decide ((lines.getD (i + 1) []).length = (lines.getD (i + 3) []).length))

/-- `fastqHeaders` counter after the scanning loop. -/
def fastqHeaderCount (lines : List Str) : Nat :=
  (List.range lines.length).countP (fastqHeaderAt lines)

/-- `fastaHeaders` counter after the scanning loop: lines starting with `>`. -/
def fastaHeaderCount (lines : List Str) : Nat :=
  lines.countP fun line => startsWith line (str ">")

/-- `parser.DetectFormatFromContent`. The three early-return loops of the
source (VCF marker, SAM signal, header scan) are reified as the
predicates/counters above; the first loop that would return in the source
decides the result here in the same order. -/
def DetectFormatFromContent (lines : List Str) : Format :=
  if lines.length = 0 then .unknown
  else if hasVCFMarker lines then .vcf
  else if hasSAMSignal lines then .sam
  else if 0 < fastqHeaderCount lines then .fastq
  else if 0 < fastaHeaderCount lines then .fasta
  else .unknown

/-! ## StylingEngine (src/unnamed/part_001, package colorer) -/

/-- `config.ColorScheme` (src/unnamed/part_002): one opaque styling
directive per nucleotide symbol, a quality mode string, and an advisory
background flag. -/
structure ColorScheme where
  A : Str
  T : Str
  G : Str
  C : Str
  U : Str
  N : Str
  Quality : Str
  Background : Bool
deriving DecidableEq, Repr

/-- `colorer.resetCode` = `"\033[0m"`. -/
def resetCode : Str := str "\x1b[0m"

/-- `Colorer.getColorForNucleotide`: per-symbol directive lookup with the
fallback to the `N` directive (when nonempty) for any other character. -/
def getColorForNucleotide (c : ColorScheme) (nucleotide : Char) : Str :=
  if nucleotide = 'A' then c.A
  else if nucleotide = 'T' then c.T
  else if nucleotide = 'G' then c.G
  else if nucleotide = 'C' then c.C
  else if nucleotide = 'U' then c.U
  else if nucleotide = 'N' then c.N
  else if c.N ≠ [] then c.N
  else []

/-- The character loop of `Colorer.ColorizeSequence`: for each character
of the (already uppercased) input, write directive + character + reset
when the directive is nonempty, else the bare character. -/
def colorizeChars (c : ColorScheme) : Str → Str
  | [] => []
  | ch :: rest =>
    (if getColorForNucleotide c ch ≠ [] then
       getColorForNucleotide c ch ++ [ch] ++ resetCode
     else [ch]) ++ colorizeChars c rest

/-- `Colorer.ColorizeSequence`: empty input returned as is; otherwise the
loop runs over `strings.ToUpper(sequence)`. -/
def ColorizeSequence (c : ColorScheme) (sequence : Str) : Str :=
  if sequence.length = 0 then sequence
  else colorizeChars c (toUpperStr sequence)

/-- `Colorer.getQualityColor`: five fixed bands by Phred score. -/
def getQualityColor (phred : Int) : Str :=
  if 40 ≤ phred then str "\x1b[92m"
  else if 30 ≤ phred then str "\x1b[32m"
  else if 20 ≤ phred then str "\x1b[93m"
  else if 10 ≤ phred then str "\x1b[91m"
  else str "\x1b[31m"

/-- `Colorer.colorizeQualityGradient`: per character, Phred score is the
code point minus 33, band colour looked up, and (when nonempty) the
character is wrapped directive/reset. -/
def colorizeQualityGradient : Str → Str
  | [] => []
  | ch :: rest =>
    (if getQualityColor ((ch.toNat : Int) - 33) ≠ [] then
       getQualityColor ((ch.toNat : Int) - 33) ++ [ch] ++ resetCode
     else [ch]) ++ colorizeQualityGradient rest

/-- The per-character style of `Colorer.colorizeQualityMono`. -/
def monoStyle (phred : Int) : Str :=
  if 30 ≤ phred then str "\x1b[1m"
  else if 20 ≤ phred then str "\x1b[0m"
  else str "\x1b[2m"

/-- `Colorer.colorizeQualityMono`: every character is wrapped
style/reset (no emptiness check in this path). -/
def colorizeQualityMono : Str → Str
  | [] => []
  | ch :: rest =>
    monoStyle ((ch.toNat : Int) - 33) ++ [ch] ++ resetCode ++
      colorizeQualityMono rest

/-- `Colorer.ColorizeQuality`: empty input returned as is; dispatch on the
scheme's quality mode, any other mode returning the input unchanged. -/
def ColorizeQuality (c : ColorScheme) (quality : Str) : Str :=
  if quality.length = 0 then quality
  else if c.Quality = str "gradient" then colorizeQualityGradient quality
  else if c.Quality = str "mono" then colorizeQualityMono quality
  else quality

/-- `Colorer.ColorizeSAM`: split on tabs; fewer than 11 fields returns the
line unchanged; field 9 is restyled when it is not `*` and is a sequence
line; field 10 is restyled when present, not `*`, and a quality line;
fields are rejoined with tabs. -/
def ColorizeSAM (c : ColorScheme) (line : Str) : Str :=
  let fields := splitOnChar '\t' line
  if fields.length < 11 then line
  else
    let sequence := fields.getD 9 []
    let fields1 :=
      if sequence ≠ str "*" ∧ IsSequenceLine sequence = true then
        fields.set 9 (ColorizeSequence c sequence)
      else fields
    let fields2 :=
      if 10 < fields1.length then
        let quality := fields1.getD 10 []
        if quality ≠ str "*" ∧ IsQualityLine quality = true then
          fields1.set 10 (ColorizeQuality c quality)
        else fields1
      else fields1
    intercalateStr ['\t'] fields2

/-- `Colorer.ColorizeVCF`: split on tabs; fewer than 5 fields returns the
line unchanged; field 3 (REF) restyled when not `.` and a sequence line;
field 4 (ALT), when not `.`, split on commas with each allele restyled
independently when a sequence line; fields rejoined with tabs. -/
def ColorizeVCF (c : ColorScheme) (line : Str) : Str :=
  let fields := splitOnChar '\t' line
  if fields.length < 5 then line
  else
    let ref := fields.getD 3 []
    let fields1 :=
      if ref ≠ str "." ∧ IsSequenceLine ref = true then
        fields.set 3 (ColorizeSequence c ref)
      else fields
    let alt := fields1.getD 4 []
    let fields2 :=
      if alt ≠ str "." then
        let alternatives := splitOnChar ',' alt
        fields1.set 4 (intercalateStr [',']
          (alternatives.map fun allele =>
            if IsSequenceLine allele = true then ColorizeSequence c allele
            else allele))
      else fields1
    intercalateStr ['\t'] fields2

/-- `cmd.processLine` (src/cmd/preview.go), as the function from an input
line, the detected format and the scheme to the printed styled line: the
spec's `classifyAndStyle`. -/
def classifyAndStyle (line : Str) (format : Format) (c : ColorScheme) : Str :=
  match format with
  | .fasta =>
    if startsWith line (str ">") then line else ColorizeSequence c line
  | .fastq =>
    if startsWith line (str "@") || startsWith line (str "+") then line
    else if IsSequenceLine line then ColorizeSequence c line
    else if IsQualityLine line then ColorizeQuality c line
    else line
  | .sam =>
    if startsWith line (str "@") then line else ColorizeSAM c line
  | .vcf =>
    if startsWith line (str "#") then line else ColorizeVCF c line
  | .unknown => line

/-- The built-in `bright` scheme from `config.defaultConfig`
(src/unnamed/part_002), used as a concrete scheme in witnesses. -/
def brightScheme : ColorScheme where
  A := str "\x1b[91m"
  T := str "\x1b[92m"
  G := str "\x1b[93m"
  C := str "\x1b[94m"
  U := str "\x1b[95m"
  N := str "\x1b[90m"
  Quality := str "gradient"
  Background := false

/-- A scheme with every directive empty and no quality mode, used as a
concrete input in witnesses. -/
def plainScheme : ColorScheme where
  A := []
  T := []
  G := []
  C := []
  U := []
  N := []
  Quality := []
  Background := false

/-! ## Helper lemmas -/

theorem getD_set_ne {α : Type} (l : List α) (i j : Nat) (x d : α)
    (h : i ≠ j) : (l.set i x).getD j d = l.getD j d := by
  induction l generalizing i j with
  | nil => simp [List.set]
  | cons a t ih =>
    cases i with
    | zero =>
      cases j with
      | zero => exact absurd rfl h
      | succ j => simp [List.set]
    | succ i =>
      cases j with
      | zero => simp [List.set]
      | succ j =>
        simp only [List.set, List.getD_cons_succ]
        exact ih i j (fun e => h (by rw [e]))

theorem set_getD_self {α : Type} (l : List α) (i : Nat) (d : α)
    (h : i < l.length) : l.set i (l.getD i d) = l := by
  induction l generalizing i with
  | nil => simp at h
  | cons a t ih =>
    cases i with
    | zero => simp [List.set]
    | succ i =>
      simp only [List.set, List.getD_cons_succ, List.cons.injEq, true_and]
      exact ih i (by simpa using h)

theorem length_toUpperStr (s : Str) : (toUpperStr s).length = s.length :=
  List.length_map s toUpperChar

/-! ## Claims about the classifiers and the detector -/

/-- C2 (counterexample): `IsProteinSequence` applies no length gate: it
already accepts the single amino-acid letter `"A"`, whose length is at
most 10. -/
theorem isProtein_no_length_gate :
    IsProteinSequence (str "A") = true ∧ (str "A").length ≤ 10 := by
  constructor
  · decide
  · decide

/-- C2 (amended): the length-≤-10 guarantee holds for the protein branch
inside `IsSequenceLine`: on a string of length at most 10, the protein
alphabet is never consulted, so `IsSequenceLine` agrees with
`IsDNASequence || IsRNASequence`. (The standalone `IsProteinSequence` has
no length gate.) -/
theorem isSequenceLine_short (s : Str) (h : s.length ≤ 10) :
    IsSequenceLine s = (IsDNASequence s || IsRNASequence s) := by
  unfold IsSequenceLine IsDNASequence IsRNASequence
  by_cases h0 : s.length = 0
  · simp [h0]
  · have hlen : ¬ ((toUpperStr s).length > 10) := by
      rw [length_toUpperStr]; omega
    by_cases hd : matchesDNA (toUpperStr s)
    · simp [h0, hd]
    · by_cases hr : matchesRNA (toUpperStr s)
      · simp [h0, hd, hr]
      · simp [h0, hd, hr, hlen]

/-- C2 (witness for the amended claim). -/
theorem isSequenceLine_short_witness :
    (str "ACDEF").length ≤ 10 ∧
      IsSequenceLine (str "ACDEF") =
        (IsDNASequence (str "ACDEF") || IsRNASequence (str "ACDEF")) :=
  ⟨by decide, isSequenceLine_short (str "ACDEF") (by decide)⟩

/-- C3: on any lookahead buffer of at most 10 lines, a line starting with
`##fileformat=VCF` forces the result VCF — the VCF loop runs before the
SAM loop, so SAM header markers or tab-heavy lines elsewhere in the
buffer cannot pre-empt it. -/
theorem detect_vcf_priority (lines : List Str) (hlen : lines.length ≤ 10)
    (h : ∃ l ∈ lines, startsWith l (str "##fileformat=VCF") = true) :
    DetectFormatFromContent lines = Format.vcf := by
  obtain ⟨l, hl, hpfx⟩ := h
  have h0 : ¬ (lines.length = 0) := by
    intro h0
    rw [List.length_eq_zero] at h0
    subst h0
    exact (List.not_mem_nil l) hl
  have hv : hasVCFMarker lines = true := by
    unfold hasVCFMarker
    rw [List.any_eq_true]
    exact ⟨l, hl, hpfx⟩
  unfold DetectFormatFromContent
  rw [if_neg h0, if_pos hv]

/-- C3 (witness): a buffer holding both a SAM header marker and a VCF
file-format line is detected as VCF. -/
def vcfSamBuffer : List Str := [str "@HD\tVN:1.6", str "##fileformat=VCFv4.2"]

theorem detect_vcf_priority_witness :
    (vcfSamBuffer.length ≤ 10 ∧ hasSAMSignal vcfSamBuffer = true) ∧
      DetectFormatFromContent vcfSamBuffer = Format.vcf :=
  ⟨⟨by decide, by decide⟩,
   detect_vcf_priority vcfSamBuffer (by decide) (by decide)⟩

/-- C4: when neither the VCF loop nor the SAM loop fires, a well-formed
four-line FASTQ record anywhere in the buffer forces FASTQ regardless of
how many `>` headers are present; with no such record the result is FASTA
when some line starts with `>`, else Unknown. -/
theorem detect_fastq_fasta (lines : List Str)
    (hv : hasVCFMarker lines = false) (hs : hasSAMSignal lines = false) :
    ((∃ i, fastqHeaderAt lines i = true) →
        DetectFormatFromContent lines = Format.fastq)
    ∧ ((∀ i, fastqHeaderAt lines i = false) →
        ((∃ l ∈ lines, startsWith l (str ">") = true) →
            DetectFormatFromContent lines = Format.fasta)
        ∧ ((∀ l ∈ lines, startsWith l (str ">") = false) →
            DetectFormatFromContent lines = Format.unknown)) := by
  constructor
  · rintro ⟨i, hi⟩
    have hilen : i + 3 < lines.length := by
      have hi' := hi
      unfold fastqHeaderAt at hi'
      simp only [Bool.and_eq_true, decide_eq_true_eq] at hi'
      exact hi'.1.2
    have h0 : ¬ (lines.length = 0) := by omega
    have hcount : 0 < fastqHeaderCount lines := by
      unfold fastqHeaderCount
      rw [List.countP_pos_iff]
      exact ⟨i, List.mem_range.2 (by omega), hi⟩
    unfold DetectFormatFromContent
    rw [if_neg h0, if_neg (by simp [hv]), if_neg (by simp [hs]), if_pos hcount]
  · intro hall
    have hcount0 : ¬ (0 < fastqHeaderCount lines) := by
      unfold fastqHeaderCount
      rw [Nat.pos_iff_ne_zero, not_not, List.countP_eq_zero]
      intro i _
      simp [hall i]
    constructor
    · rintro ⟨l, hl, hpfx⟩
      have h0 : ¬ (lines.length = 0) := by
        intro h0
        rw [List.length_eq_zero] at h0
        subst h0
        exact (List.not_mem_nil l) hl
      have hfasta : 0 < fastaHeaderCount lines := by
        unfold fastaHeaderCount
        rw [List.countP_pos_iff]
        exact ⟨l, hl, hpfx⟩
      unfold DetectFormatFromContent
      rw [if_neg h0, if_neg (by simp [hv]), if_neg (by simp [hs]),
        if_neg hcount0, if_pos hfasta]
    · intro hnone
      have hfasta0 : ¬ (0 < fastaHeaderCount lines) := by
        unfold fastaHeaderCount
        rw [Nat.pos_iff_ne_zero, not_not, List.countP_eq_zero]
        intro l hl
        simp [hnone l hl]
      by_cases h0 : lines.length = 0
      · unfold DetectFormatFromContent
        rw [if_pos h0]
      · unfold DetectFormatFromContent
        rw [if_neg h0, if_neg (by simp [hv]), if_neg (by simp [hs]),
          if_neg hcount0, if_neg hfasta0]

/-- C4 (witness): the buffer `["@r1","ACGT","+","!!!!"]` is detected as
FASTQ. -/
def fastqBuffer : List Str := [str "@r1", str "ACGT", str "+", str "!!!!"]

theorem detect_fastq_fasta_witness :
    (hasVCFMarker fastqBuffer = false ∧ hasSAMSignal fastqBuffer = false ∧
      fastqHeaderAt fastqBuffer 0 = true) ∧
      DetectFormatFromContent fastqBuffer = Format.fastq :=
  ⟨⟨by decide, by decide, by decide⟩,
   (detect_fastq_fasta fastqBuffer (by decide) (by decide)).1 ⟨0, by decide⟩⟩

/-! ## Claims about the styling engine -/

/-- C5: a SAM line with fewer than 11 tab-separated fields and a VCF line
with fewer than 5 are returned byte-identical — malformed tabular input
degrades to passthrough, never a partial rewrite. -/
theorem malformed_tabular_passthrough (c : ColorScheme) (line : Str) :
    ((splitOnChar '\t' line).length < 11 → ColorizeSAM c line = line)
    ∧ ((splitOnChar '\t' line).length < 5 → ColorizeVCF c line = line) := by
  constructor
  · intro h
    simp only [ColorizeSAM]
    rw [if_pos h]
  · intro h
    simp only [ColorizeVCF]
    rw [if_pos h]

/-- C5 (witness): a SAM line with exactly 9 tab-separated fields and a
VCF line with exactly 4 are returned unchanged. -/
def samShortLine : Str := str "r1\t0\tchr1\t1\t60\t5M\t*\t0\t0"

def vcfShortLine : Str := str "chr1\t1\trs1\tA"

theorem malformed_tabular_passthrough_witness :
    ((splitOnChar '\t' samShortLine).length = 9 ∧
      (splitOnChar '\t' vcfShortLine).length = 4)
    ∧ ColorizeSAM brightScheme samShortLine = samShortLine
    ∧ ColorizeVCF brightScheme vcfShortLine = vcfShortLine :=
  ⟨⟨by decide, by decide⟩,
   (malformed_tabular_passthrough brightScheme samShortLine).1 (by decide),
   (malformed_tabular_passthrough brightScheme vcfShortLine).2 (by decide)⟩

/-- C7: both styling functions are total: the empty string styles to the
empty string under every scheme, and any quality mode other than
`gradient` and `mono` (the empty mode included) returns its input
unchanged. -/
theorem styling_total (c : ColorScheme) :
    ColorizeSequence c [] = [] ∧ ColorizeQuality c [] = []
    ∧ ∀ q : Str, c.Quality ≠ str "gradient" → c.Quality ≠ str "mono" →
        ColorizeQuality c q = q := by
  refine ⟨rfl, rfl, ?_⟩
  intro q hg hm
  unfold ColorizeQuality
  by_cases h0 : q.length = 0
  · rw [if_pos h0]
  · rw [if_neg h0, if_neg hg, if_neg hm]

/-- C7 (witness): a scheme whose quality mode is the empty string leaves
a nonempty quality string unchanged. -/
theorem styling_total_witness :
    (plainScheme.Quality ≠ str "gradient" ∧ plainScheme.Quality ≠ str "mono")
    ∧ ColorizeQuality plainScheme (str "abc") = str "abc" :=
  ⟨⟨by decide, by decide⟩,
   (styling_total plainScheme).2.2 (str "abc") (by decide) (by decide)⟩

/-- Every band directive of `getQualityColor` is nonempty, so the
gradient loop always takes its styled branch. -/
theorem getQualityColor_ne_nil (phred : Int) : getQualityColor phred ≠ [] := by
  unfold getQualityColor
  split
  · decide
  · split
    · decide
    · split
      · decide
      · split
        · decide
        · decide

/-- The gradient loop, written as one chunk per character. -/
theorem colorizeQualityGradient_eq (q : Str) :
    colorizeQualityGradient q =
      q.flatMap fun ch =>
        getQualityColor ((ch.toNat : Int) - 33) ++ [ch] ++ resetCode := by
  induction q with
  | nil => rfl
  | cons ch rest ih =>
    simp only [colorizeQualityGradient, List.flatMap_cons]
    rw [if_pos (getQualityColor_ne_nil _), ih]

/-- C8: under the gradient mode, each character is scored as code point
minus 33 and wrapped in the band directive for exactly one of five fixed
bands followed by a reset; the five band directives are pairwise
distinct; `'!'` (Phred 0) gets the very-poor band and `'I'` (Phred 40)
the excellent band. -/
theorem gradient_bands (c : ColorScheme) (q : Str)
    (hm : c.Quality = str "gradient") :
    ColorizeQuality c q =
      (q.flatMap fun ch =>
        getQualityColor ((ch.toNat : Int) - 33) ++ [ch] ++ resetCode)
    ∧ (∀ phred : Int, getQualityColor phred ∈
        [str "\x1b[92m", str "\x1b[32m", str "\x1b[93m", str "\x1b[91m",
         str "\x1b[31m"])
    ∧ ([str "\x1b[92m", str "\x1b[32m", str "\x1b[93m", str "\x1b[91m",
        str "\x1b[31m"] : List Str).Pairwise (· ≠ ·)
    ∧ getQualityColor (('!'.toNat : Int) - 33) = str "\x1b[31m"
    ∧ getQualityColor (('I'.toNat : Int) - 33) = str "\x1b[92m" := by
  refine ⟨?_, ?_, by decide, by decide, by decide⟩
  · unfold ColorizeQuality
    by_cases h0 : q.length = 0
    · rw [if_pos h0]
      rw [List.length_eq_zero] at h0
      subst h0
      rfl
    · rw [if_neg h0, if_pos hm]
      exact colorizeQualityGradient_eq q
  · intro phred
    unfold getQualityColor
    split
    · simp
    · split
      · simp
      · split
        · simp
        · split
          · simp
          · simp

/-- C8 (witness): under the `bright` scheme (gradient mode) the quality
string `"!"` is styled with the very-poor band directive and reset. -/
theorem gradient_bands_witness :
    brightScheme.Quality = str "gradient"
    ∧ ColorizeQuality brightScheme (str "!") =
        str "\x1b[31m" ++ str "!" ++ resetCode := by
  refine ⟨by decide, ?_⟩
  rw [(gradient_bands brightScheme (str "!") (by decide)).1]
  decide

/-- The claim's per-field description of a styled SAM data line, for
comparison with `ColorizeSAM`: field 9 replaced iff it is not `*` and a
sequence line, field 10 replaced iff it is not `*` and a quality line,
every other field untouched. -/
def samStyledFieldsSpec (c : ColorScheme) (fields : List Str) : List Str :=
  (fields.set 9
    (if fields.getD 9 [] ≠ str "*" ∧ IsSequenceLine (fields.getD 9 []) = true
     then ColorizeSequence c (fields.getD 9 []) else fields.getD 9 [])).set 10
    (if fields.getD 10 [] ≠ str "*" ∧ IsQualityLine (fields.getD 10 []) = true
     then ColorizeQuality c (fields.getD 10 []) else fields.getD 10 [])

/-- C6: on a SAM data line with at least 11 tab-separated fields, the
output is the tab-rejoin of the original fields with only fields 9 and 10
possibly restyled, each under its own guard; the field count is preserved
and every field other than 9 and 10 is byte-identical. -/
theorem colorizeSAM_frame (c : ColorScheme) (line : Str)
    (h : 11 ≤ (splitOnChar '\t' line).length) :
    ColorizeSAM c line =
      intercalateStr ['\t'] (samStyledFieldsSpec c (splitOnChar '\t' line))
    ∧ (samStyledFieldsSpec c (splitOnChar '\t' line)).length =
        (splitOnChar '\t' line).length
    ∧ ∀ j : Nat, j ≠ 9 → j ≠ 10 →
        (samStyledFieldsSpec c (splitOnChar '\t' line)).getD j [] =
          (splitOnChar '\t' line).getD j [] := by
  obtain ⟨fields, hf⟩ : ∃ fs, splitOnChar '\t' line = fs := ⟨_, rfl⟩
  rw [hf] at h
  refine ⟨?_, ?_, ?_⟩
  · simp only [ColorizeSAM, samStyledFieldsSpec, hf]
    rw [if_neg (by omega)]
    by_cases h9 : fields.getD 9 [] ≠ str "*" ∧
        IsSequenceLine (fields.getD 9 []) = true
    · rw [if_pos h9, if_pos h9]
      have hl1 : 10 <
          (fields.set 9 (ColorizeSequence c (fields.getD 9 []))).length := by
        rw [List.length_set]; omega
      rw [if_pos hl1,
        getD_set_ne fields 9 10 (ColorizeSequence c (fields.getD 9 [])) []
          (by omega)]
      by_cases h10 : fields.getD 10 [] ≠ str "*" ∧
          IsQualityLine (fields.getD 10 []) = true
      · rw [if_pos h10, if_pos h10]
      · rw [if_neg h10, if_neg h10]
        rw [← getD_set_ne fields 9 10
          (ColorizeSequence c (fields.getD 9 [])) [] (by omega),
          set_getD_self _ 10 [] (by rw [List.length_set]; omega)]
    · rw [if_neg h9, if_neg h9]
      rw [if_pos (show 10 < fields.length by omega)]
      by_cases h10 : fields.getD 10 [] ≠ str "*" ∧
          IsQualityLine (fields.getD 10 []) = true
      · rw [if_pos h10, if_pos h10,
          set_getD_self fields 9 [] (by omega)]
      · rw [if_neg h10, if_neg h10,
          set_getD_self fields 9 [] (by omega),
          set_getD_self fields 10 [] (by omega)]
  · simp [samStyledFieldsSpec, hf]
  · intro j hj9 hj10
    simp only [samStyledFieldsSpec, hf]
    rw [getD_set_ne _ 10 j _ [] (fun e => hj10 e.symm),
      getD_set_ne _ 9 j _ [] (fun e => hj9 e.symm)]

/-- C6 (witness): a SAM data line with 11 fields, field 9 = `ACGTN`,
field 10 = `!!!!!`. -/
def samFullLine : Str := str "r1\t0\tchr1\t1\t60\t5M\t*\t0\t0\tACGTN\t!!!!!"

theorem colorizeSAM_frame_witness :
    11 ≤ (splitOnChar '\t' samFullLine).length
    ∧ ColorizeSAM brightScheme samFullLine =
        intercalateStr ['\t']
          (samStyledFieldsSpec brightScheme (splitOnChar '\t' samFullLine)) :=
  ⟨by decide, (colorizeSAM_frame brightScheme samFullLine (by decide)).1⟩

/-! ## Emission traces

The styling functions build their output through a string builder. To
speak about which bytes of the output are inserted styling and which are
payload, each builder write is reified as one `Emit` token: verbatim
payload text, an inserted styling directive, or an inserted reset.
`renderE` flattens a trace back to the produced string; the lemmas below
prove each trace renders to exactly the corresponding `Colorize*` output,
so the traces are faithful. `stripE` removes the inserted directive and
reset writes, keeping the payload bytes. -/

inductive Emit
  | lit (s : Str)
  | directive (s : Str)
  | reset
deriving DecidableEq, Repr

/-- Flatten a trace to the produced output string. -/
def renderE : List Emit → Str
  | [] => []
  | .lit s :: rest => s ++ renderE rest
  | .directive s :: rest => s ++ renderE rest
  | .reset :: rest => resetCode ++ renderE rest

/-- Remove the inserted styling writes, keeping the payload bytes. -/
def stripE : List Emit → Str
  | [] => []
  | .lit s :: rest => s ++ stripE rest
  | .directive _ :: rest => stripE rest
  | .reset :: rest => stripE rest

def isResetE : Emit → Bool
  | .reset => true
  | _ => false

/-- Number of inserted reset writes in a trace. -/
def countResetE (es : List Emit) : Nat := es.countP isResetE

/-- Trace of the character loop of `Colorer.ColorizeSequence`. -/
def emitSeqChars (c : ColorScheme) : Str → List Emit
  | [] => []
  | ch :: rest =>
    (if getColorForNucleotide c ch ≠ [] then
       [Emit.directive (getColorForNucleotide c ch), Emit.lit [ch], Emit.reset]
     else [Emit.lit [ch]]) ++ emitSeqChars c rest

/-- Trace of `Colorer.ColorizeSequence`. -/
def emitSequence (c : ColorScheme) (sequence : Str) : List Emit :=
  if sequence.length = 0 then [] else emitSeqChars c (toUpperStr sequence)

/-- Trace of `Colorer.colorizeQualityGradient`. -/
def emitQualityGradient : Str → List Emit
  | [] => []
  | ch :: rest =>
    (if getQualityColor ((ch.toNat : Int) - 33) ≠ [] then
       [Emit.directive (getQualityColor ((ch.toNat : Int) - 33)),
        Emit.lit [ch], Emit.reset]
     else [Emit.lit [ch]]) ++ emitQualityGradient rest

/-- Trace of `Colorer.colorizeQualityMono`. -/
def emitQualityMono : Str → List Emit
  | [] => []
  | ch :: rest =>
    Emit.directive (monoStyle ((ch.toNat : Int) - 33)) :: Emit.lit [ch] ::
      Emit.reset :: emitQualityMono rest

/-- Trace of `Colorer.ColorizeQuality`. -/
def emitQuality (c : ColorScheme) (quality : Str) : List Emit :=
  if quality.length = 0 then []
  else if c.Quality = str "gradient" then emitQualityGradient quality
  else if c.Quality = str "mono" then emitQualityMono quality
  else [Emit.lit quality]

theorem renderE_append (a b : List Emit) :
    renderE (a ++ b) = renderE a ++ renderE b := by
  induction a with
  | nil => rfl
  | cons e rest ih => cases e <;> simp [renderE, ih]

theorem stripE_append (a b : List Emit) :
    stripE (a ++ b) = stripE a ++ stripE b := by
  induction a with
  | nil => rfl
  | cons e rest ih => cases e <;> simp [stripE, ih]

theorem renderE_emitSeqChars (c : ColorScheme) (s : Str) :
    renderE (emitSeqChars c s) = colorizeChars c s := by
  induction s with
  | nil => rfl
  | cons ch rest ih =>
    simp only [emitSeqChars, colorizeChars]
    by_cases hc : getColorForNucleotide c ch ≠ []
    · rw [if_pos hc, if_pos hc, renderE_append, ih]
      simp [renderE]
    · rw [if_neg hc, if_neg hc, renderE_append, ih]
      simp [renderE]

theorem stripE_emitSeqChars (c : ColorScheme) (s : Str) :
    stripE (emitSeqChars c s) = s := by
  induction s with
  | nil => rfl
  | cons ch rest ih =>
    simp only [emitSeqChars]
    by_cases hc : getColorForNucleotide c ch ≠ []
    · rw [if_pos hc, stripE_append, ih]
      simp [stripE]
    · rw [if_neg hc, stripE_append, ih]
      simp [stripE]

theorem countResetE_emitSeqChars (c : ColorScheme) (s : Str) :
    countResetE (emitSeqChars c s) =
      s.countP fun ch => decide (getColorForNucleotide c ch ≠ []) := by
  induction s with
  | nil => rfl
  | cons ch rest ih =>
    simp only [emitSeqChars, countResetE, List.countP_cons]
    by_cases hc : getColorForNucleotide c ch ≠ []
    · rw [if_pos hc, List.countP_append]
      simp only [countResetE] at ih
      rw [ih]
      simp [isResetE, hc]
      omega
    · rw [if_neg hc, List.countP_append]
      simp only [countResetE] at ih
      rw [ih]
      simp [isResetE, hc]

theorem renderE_emitSequence (c : ColorScheme) (s : Str) :
    renderE (emitSequence c s) = ColorizeSequence c s := by
  unfold emitSequence ColorizeSequence
  by_cases h0 : s.length = 0
  · rw [if_pos h0, if_pos h0]
    rw [List.length_eq_zero] at h0
    subst h0
    rfl
  · rw [if_neg h0, if_neg h0]
    exact renderE_emitSeqChars c (toUpperStr s)

theorem stripE_emitSequence (c : ColorScheme) (s : Str) :
    stripE (emitSequence c s) = toUpperStr s := by
  unfold emitSequence
  by_cases h0 : s.length = 0
  · rw [if_pos h0]
    rw [List.length_eq_zero] at h0
    subst h0
    rfl
  · rw [if_neg h0]
    exact stripE_emitSeqChars c (toUpperStr s)

theorem renderE_emitQualityGradient (q : Str) :
    renderE (emitQualityGradient q) = colorizeQualityGradient q := by
  induction q with
  | nil => rfl
  | cons ch rest ih =>
    simp only [emitQualityGradient, colorizeQualityGradient]
    by_cases hc : getQualityColor ((ch.toNat : Int) - 33) ≠ []
    · rw [if_pos hc, if_pos hc, renderE_append, ih]
      simp [renderE]
    · rw [if_neg hc, if_neg hc, renderE_append, ih]
      simp [renderE]

theorem stripE_emitQualityGradient (q : Str) :
    stripE (emitQualityGradient q) = q := by
  induction q with
  | nil => rfl
  | cons ch rest ih =>
    simp only [emitQualityGradient]
    by_cases hc : getQualityColor ((ch.toNat : Int) - 33) ≠ []
    · rw [if_pos hc, stripE_append, ih]
      simp [stripE]
    · rw [if_neg hc, stripE_append, ih]
      simp [stripE]

theorem renderE_emitQualityMono (q : Str) :
    renderE (emitQualityMono q) = colorizeQualityMono q := by
  induction q with
  | nil => rfl
  | cons ch rest ih =>
    simp only [emitQualityMono, colorizeQualityMono, renderE, ih]
    simp

theorem stripE_emitQualityMono (q : Str) :
    stripE (emitQualityMono q) = q := by
  induction q with
  | nil => rfl
  | cons ch rest ih =>
    simp only [emitQualityMono, stripE, ih]
    rfl

theorem renderE_emitQuality (c : ColorScheme) (q : Str) :
    renderE (emitQuality c q) = ColorizeQuality c q := by
  unfold emitQuality ColorizeQuality
  by_cases h0 : q.length = 0
  · rw [if_pos h0, if_pos h0]
    rw [List.length_eq_zero] at h0
    subst h0
    rfl
  · rw [if_neg h0, if_neg h0]
    by_cases hg : c.Quality = str "gradient"
    · rw [if_pos hg, if_pos hg]
      exact renderE_emitQualityGradient q
    · rw [if_neg hg, if_neg hg]
      by_cases hm : c.Quality = str "mono"
      · rw [if_pos hm, if_pos hm]
        exact renderE_emitQualityMono q
      · rw [if_neg hm, if_neg hm]
        simp [renderE]

theorem stripE_emitQuality (c : ColorScheme) (q : Str) :
    stripE (emitQuality c q) = q := by
  unfold emitQuality
  by_cases h0 : q.length = 0
  · rw [if_pos h0]
    rw [List.length_eq_zero] at h0
    subst h0
    rfl
  · rw [if_neg h0]
    by_cases hg : c.Quality = str "gradient"
    · rw [if_pos hg]
      exact stripE_emitQualityGradient q
    · rw [if_neg hg]
      by_cases hm : c.Quality = str "mono"
      · rw [if_pos hm]
        exact stripE_emitQualityMono q
      · rw [if_neg hm]
        simp [stripE]

/-- C9: the trace of `ColorizeSequence` renders to exactly its output,
and the number of inserted reset writes equals the number of input
characters whose (uppercased) symbol got a nonempty directive — one
directive/reset pair per styled character, bare characters emit no
reset. -/
theorem styleSequence_reset_count (c : ColorScheme) (s : Str) :
    renderE (emitSequence c s) = ColorizeSequence c s
    ∧ countResetE (emitSequence c s) =
        s.countP fun ch =>
          decide (getColorForNucleotide c (toUpperChar ch) ≠ []) := by
  refine ⟨renderE_emitSequence c s, ?_⟩
  unfold emitSequence
  by_cases h0 : s.length = 0
  · rw [if_pos h0]
    rw [List.length_eq_zero] at h0
    subst h0
    rfl
  · rw [if_neg h0, countResetE_emitSeqChars, toUpperStr, List.countP_map]
    rfl

/-- C10: stripping the inserted styling writes from the trace of
`ColorizeSequence` yields the uppercase conversion of the input — not the
input itself: lowercase payload characters lose their case, as the
concrete input `"acgt"` under the built-in `bright` scheme shows. -/
theorem strip_colorizeSequence_upper :
    (∀ (c : ColorScheme) (s : Str),
        renderE (emitSequence c s) = ColorizeSequence c s
        ∧ stripE (emitSequence c s) = toUpperStr s)
    ∧ stripE (emitSequence brightScheme (str "acgt")) ≠ str "acgt"
    ∧ stripE (emitSequence brightScheme (str "acgt")) =
        toUpperStr (str "acgt") :=
  ⟨fun c s => ⟨renderE_emitSequence c s, stripE_emitSequence c s⟩,
   by decide, by decide⟩

/-! ## Traces of the tabular colorizers and of the per-line dispatch -/

/-- Join of per-field traces with a verbatim separator, mirroring
`strings.Join`. -/
def joinE (sep : Str) : List (List Emit) → List Emit
  | [] => []
  | [p] => p
  | p :: ps => p ++ [Emit.lit sep] ++ joinE sep ps

/-- Trace of `Colorer.ColorizeSAM`. -/
def emitSAM (c : ColorScheme) (line : Str) : List Emit :=
  let fields := splitOnChar '\t' line
  if fields.length < 11 then [Emit.lit line]
  else
    let efields : List (List Emit) := fields.map fun f => [Emit.lit f]
    let sequence := fields.getD 9 []
    let efields1 :=
      if sequence ≠ str "*" ∧ IsSequenceLine sequence = true then
        efields.set 9 (emitSequence c sequence)
      else efields
    let efields2 :=
      if 10 < fields.length then
        let quality := fields.getD 10 []
        if quality ≠ str "*" ∧ IsQualityLine quality = true then
          efields1.set 10 (emitQuality c quality)
        else efields1
      else efields1
    joinE ['\t'] efields2

/-- Trace of `Colorer.ColorizeVCF`. -/
def emitVCF (c : ColorScheme) (line : Str) : List Emit :=
  let fields := splitOnChar '\t' line
  if fields.length < 5 then [Emit.lit line]
  else
    let efields : List (List Emit) := fields.map fun f => [Emit.lit f]
    let ref := fields.getD 3 []
    let efields1 :=
      if ref ≠ str "." ∧ IsSequenceLine ref = true then
        efields.set 3 (emitSequence c ref)
      else efields
    let alt := fields.getD 4 []
    let efields2 :=
      if alt ≠ str "." then
        efields1.set 4 (joinE [',']
          ((splitOnChar ',' alt).map fun allele =>
            if IsSequenceLine allele = true then emitSequence c allele
            else [Emit.lit allele]))
      else efields1
    joinE ['\t'] efields2

/-- Trace of `cmd.processLine` / `classifyAndStyle`. -/
def emitLine (line : Str) (format : Format) (c : ColorScheme) : List Emit :=
  match format with
  | .fasta =>
    if startsWith line (str ">") then [Emit.lit line]
    else emitSequence c line
  | .fastq =>
    if startsWith line (str "@") || startsWith line (str "+") then
      [Emit.lit line]
    else if IsSequenceLine line then emitSequence c line
    else if IsQualityLine line then emitQuality c line
    else [Emit.lit line]
  | .sam =>
    if startsWith line (str "@") then [Emit.lit line] else emitSAM c line
  | .vcf =>
    if startsWith line (str "#") then [Emit.lit line] else emitVCF c line
  | .unknown => [Emit.lit line]

/-! ## Reference functions for the amended round-trip claim -/

/-- What stripping the inserted styling from a styled SAM data line
leaves: the tab-rejoined fields with field 9 uppercased when it was
restyled (quality styling preserves its payload bytes, so field 10 is
unchanged). -/
def strippedSAM (line : Str) : Str :=
  let fields := splitOnChar '\t' line
  if fields.length < 11 then line
  else
    let sequence := fields.getD 9 []
    let fields1 :=
      if sequence ≠ str "*" ∧ IsSequenceLine sequence = true then
        fields.set 9 (toUpperStr sequence)
      else fields
    intercalateStr ['\t'] fields1

/-- What stripping the inserted styling from a styled VCF data line
leaves: the tab-rejoined fields with the REF field and each restyled ALT
allele uppercased. -/
def strippedVCF (line : Str) : Str :=
  let fields := splitOnChar '\t' line
  if fields.length < 5 then line
  else
    let ref := fields.getD 3 []
    let fields1 :=
      if ref ≠ str "." ∧ IsSequenceLine ref = true then
        fields.set 3 (toUpperStr ref)
      else fields
    let alt := fields.getD 4 []
    let fields2 :=
      if alt ≠ str "." then
        fields1.set 4 (intercalateStr [',']
          ((splitOnChar ',' alt).map fun allele =>
            if IsSequenceLine allele = true then toUpperStr allele
            else allele))
      else fields1
    intercalateStr ['\t'] fields2

/-- What stripping the inserted styling from `classifyAndStyle`'s output
leaves, per format: the input line with classified sequence payloads
uppercased and everything else — header lines, quality payloads, tabs,
unclassified fields — byte-identical. -/
def strippedLine (line : Str) : Format → Str
  | .fasta =>
    if startsWith line (str ">") then line else toUpperStr line
  | .fastq =>
    if startsWith line (str "@") || startsWith line (str "+") then line
    else if IsSequenceLine line then toUpperStr line
    else line
  | .sam =>
    if startsWith line (str "@") then line else strippedSAM line
  | .vcf =>
    if startsWith line (str "#") then line else strippedVCF line
  | .unknown => line

theorem renderE_joinE (sep : Str) (parts : List (List Emit)) :
    renderE (joinE sep parts) = intercalateStr sep (parts.map renderE) := by
  induction parts with
  | nil => rfl
  | cons p ps ih =>
    cases ps with
    | nil => rfl
    | cons q qs =>
      simp only [joinE, List.map_cons] at *
      rw [renderE_append, renderE_append, ih]
      simp [renderE, intercalateStr]

theorem stripE_joinE (sep : Str) (parts : List (List Emit)) :
    stripE (joinE sep parts) = intercalateStr sep (parts.map stripE) := by
  induction parts with
  | nil => rfl
  | cons p ps ih =>
    cases ps with
    | nil => rfl
    | cons q qs =>
      simp only [joinE, List.map_cons] at *
      rw [stripE_append, stripE_append, ih]
      simp [stripE, intercalateStr]

theorem renderE_litWrap (fields : List Str) :
    (fields.map fun f => [Emit.lit f]).map renderE = fields := by
  induction fields with
  | nil => rfl
  | cons f fs ih => simp [renderE, ih]

theorem stripE_litWrap (fields : List Str) :
    (fields.map fun f => [Emit.lit f]).map stripE = fields := by
  induction fields with
  | nil => rfl
  | cons f fs ih => simp [stripE, ih]

theorem renderE_joinE_alleles (c : ColorScheme) (alleles : List Str) :
    renderE (joinE [','] (alleles.map fun a =>
        if IsSequenceLine a = true then emitSequence c a
        else [Emit.lit a])) =
      intercalateStr [','] (alleles.map fun a =>
        if IsSequenceLine a = true then ColorizeSequence c a else a) := by
  rw [renderE_joinE, List.map_map]
  refine congrArg _ (List.map_congr_left ?_)
  intro a _
  by_cases hseq : IsSequenceLine a = true
  · simp [Function.comp, hseq, renderE_emitSequence]
  · simp [Function.comp, hseq, renderE]

theorem stripE_joinE_alleles (c : ColorScheme) (alleles : List Str) :
    stripE (joinE [','] (alleles.map fun a =>
        if IsSequenceLine a = true then emitSequence c a
        else [Emit.lit a])) =
      intercalateStr [','] (alleles.map fun a =>
        if IsSequenceLine a = true then toUpperStr a else a) := by
  rw [stripE_joinE, List.map_map]
  refine congrArg _ (List.map_congr_left ?_)
  intro a _
  by_cases hseq : IsSequenceLine a = true
  · simp [Function.comp, hseq, stripE_emitSequence]
  · simp [Function.comp, hseq, stripE]

theorem renderE_emitSAM (c : ColorScheme) (line : Str) :
    renderE (emitSAM c line) = ColorizeSAM c line := by
  obtain ⟨fields, hf⟩ : ∃ fs, splitOnChar '\t' line = fs := ⟨_, rfl⟩
  simp only [emitSAM, ColorizeSAM, hf]
  by_cases hlen : fields.length < 11
  · rw [if_pos hlen, if_pos hlen]
    simp [renderE]
  · rw [if_neg hlen, if_neg hlen]
    have h20 : 10 < fields.length := by omega
    by_cases h9 : fields.getD 9 [] ≠ str "*" ∧
        IsSequenceLine (fields.getD 9 []) = true
    · rw [if_pos h9, if_pos h9, List.length_set,
        getD_set_ne fields 9 10 (ColorizeSequence c (fields.getD 9 [])) []
          (by omega),
        if_pos h20, if_pos h20]
      by_cases h10 : fields.getD 10 [] ≠ str "*" ∧
          IsQualityLine (fields.getD 10 []) = true
      · rw [if_pos h10, if_pos h10, renderE_joinE, List.map_set,
          List.map_set, renderE_litWrap, renderE_emitSequence,
          renderE_emitQuality]
      · rw [if_neg h10, if_neg h10, renderE_joinE, List.map_set,
          renderE_litWrap, renderE_emitSequence]
    · rw [if_neg h9, if_neg h9, if_pos h20, if_pos h20]
      by_cases h10 : fields.getD 10 [] ≠ str "*" ∧
          IsQualityLine (fields.getD 10 []) = true
      · rw [if_pos h10, if_pos h10, renderE_joinE, List.map_set,
          renderE_litWrap, renderE_emitQuality]
      · rw [if_neg h10, if_neg h10, renderE_joinE, renderE_litWrap]

theorem stripE_emitSAM (c : ColorScheme) (line : Str) :
    stripE (emitSAM c line) = strippedSAM line := by
  obtain ⟨fields, hf⟩ : ∃ fs, splitOnChar '\t' line = fs := ⟨_, rfl⟩
  simp only [emitSAM, strippedSAM, hf]
  by_cases hlen : fields.length < 11
  · rw [if_pos hlen, if_pos hlen]
    simp [stripE]
  · rw [if_neg hlen, if_neg hlen]
    have h20 : 10 < fields.length := by omega
    rw [if_pos h20]
    by_cases h9 : fields.getD 9 [] ≠ str "*" ∧
        IsSequenceLine (fields.getD 9 []) = true
    · rw [if_pos h9, if_pos h9]
      by_cases h10 : fields.getD 10 [] ≠ str "*" ∧
          IsQualityLine (fields.getD 10 []) = true
      · rw [if_pos h10, stripE_joinE, List.map_set, List.map_set,
          stripE_litWrap, stripE_emitSequence, stripE_emitQuality]
        congr 1
        rw [← getD_set_ne fields 9 10 (toUpperStr (fields.getD 9 [])) []
            (by omega),
          set_getD_self _ 10 [] (by rw [List.length_set]; omega)]
      · rw [if_neg h10, stripE_joinE, List.map_set, stripE_litWrap,
          stripE_emitSequence]
    · rw [if_neg h9, if_neg h9]
      by_cases h10 : fields.getD 10 [] ≠ str "*" ∧
          IsQualityLine (fields.getD 10 []) = true
      · rw [if_pos h10, stripE_joinE, List.map_set, stripE_litWrap,
          stripE_emitQuality]
        congr 1
        exact set_getD_self fields 10 [] (by omega)
      · rw [if_neg h10, stripE_joinE, stripE_litWrap]

theorem renderE_emitVCF (c : ColorScheme) (line : Str) :
    renderE (emitVCF c line) = ColorizeVCF c line := by
  obtain ⟨fields, hf⟩ : ∃ fs, splitOnChar '\t' line = fs := ⟨_, rfl⟩
  simp only [emitVCF, ColorizeVCF, hf]
  by_cases hlen : fields.length < 5
  · rw [if_pos hlen, if_pos hlen]
    simp [renderE]
  · rw [if_neg hlen, if_neg hlen]
    by_cases h3 : fields.getD 3 [] ≠ str "." ∧
        IsSequenceLine (fields.getD 3 []) = true
    · rw [if_pos h3, if_pos h3,
        getD_set_ne fields 3 4 (ColorizeSequence c (fields.getD 3 [])) []
          (by omega)]
      by_cases h4 : fields.getD 4 [] ≠ str "."
      · rw [if_pos h4, if_pos h4, renderE_joinE, List.map_set, List.map_set,
          renderE_litWrap, renderE_emitSequence, renderE_joinE_alleles]
      · rw [if_neg h4, if_neg h4, renderE_joinE, List.map_set,
          renderE_litWrap, renderE_emitSequence]
    · rw [if_neg h3, if_neg h3]
      by_cases h4 : fields.getD 4 [] ≠ str "."
      · rw [if_pos h4, if_pos h4, renderE_joinE, List.map_set,
          renderE_litWrap, renderE_joinE_alleles]
      · rw [if_neg h4, if_neg h4, renderE_joinE, renderE_litWrap]

theorem stripE_emitVCF (c : ColorScheme) (line : Str) :
    stripE (emitVCF c line) = strippedVCF line := by
  obtain ⟨fields, hf⟩ : ∃ fs, splitOnChar '\t' line = fs := ⟨_, rfl⟩
  simp only [emitVCF, strippedVCF, hf]
  by_cases hlen : fields.length < 5
  · rw [if_pos hlen, if_pos hlen]
    simp [stripE]
  · rw [if_neg hlen, if_neg hlen]
    by_cases h3 : fields.getD 3 [] ≠ str "." ∧
        IsSequenceLine (fields.getD 3 []) = true
    · rw [if_pos h3, if_pos h3]
      by_cases h4 : fields.getD 4 [] ≠ str "."
      · rw [if_pos h4, if_pos h4, stripE_joinE, List.map_set, List.map_set,
          stripE_litWrap, stripE_emitSequence, stripE_joinE_alleles]
      · rw [if_neg h4, if_neg h4, stripE_joinE, List.map_set,
          stripE_litWrap, stripE_emitSequence]
    · rw [if_neg h3, if_neg h3]
      by_cases h4 : fields.getD 4 [] ≠ str "."
      · rw [if_pos h4, if_pos h4, stripE_joinE, List.map_set,
          stripE_litWrap, stripE_joinE_alleles]
      · rw [if_neg h4, if_neg h4, stripE_joinE, stripE_litWrap]

theorem renderE_emitLine (line : Str) (format : Format) (c : ColorScheme) :
    renderE (emitLine line format c) = classifyAndStyle line format c := by
  cases format with
  | fasta =>
    by_cases h : startsWith line (str ">") = true
    · simp [emitLine, classifyAndStyle, h, renderE]
    · simp [emitLine, classifyAndStyle, h, renderE_emitSequence]
  | fastq =>
    by_cases h1 : (startsWith line (str "@") || startsWith line (str "+")) =
        true
    · simp [emitLine, classifyAndStyle, h1, renderE]
    · by_cases h2 : IsSequenceLine line = true
      · simp [emitLine, classifyAndStyle, h1, h2, renderE_emitSequence]
      · by_cases h3 : IsQualityLine line = true
        · simp [emitLine, classifyAndStyle, h1, h2, h3, renderE_emitQuality]
        · simp [emitLine, classifyAndStyle, h1, h2, h3, renderE]
  | sam =>
    by_cases h : startsWith line (str "@") = true
    · simp [emitLine, classifyAndStyle, h, renderE]
    · simp [emitLine, classifyAndStyle, h, renderE_emitSAM]
  | vcf =>
    by_cases h : startsWith line (str "#") = true
    · simp [emitLine, classifyAndStyle, h, renderE]
    · simp [emitLine, classifyAndStyle, h, renderE_emitVCF]
  | unknown => simp [emitLine, classifyAndStyle, renderE]

theorem stripE_emitLine (line : Str) (format : Format) (c : ColorScheme) :
    stripE (emitLine line format c) = strippedLine line format := by
  cases format with
  | fasta =>
    by_cases h : startsWith line (str ">") = true
    · simp [emitLine, strippedLine, h, stripE]
    · simp [emitLine, strippedLine, h, stripE_emitSequence]
  | fastq =>
    by_cases h1 : (startsWith line (str "@") || startsWith line (str "+")) =
        true
    · simp [emitLine, strippedLine, h1, stripE]
    · by_cases h2 : IsSequenceLine line = true
      · simp [emitLine, strippedLine, h1, h2, stripE_emitSequence]
      · by_cases h3 : IsQualityLine line = true
        · simp [emitLine, strippedLine, h1, h2, h3, stripE_emitQuality]
        · simp [emitLine, strippedLine, h1, h2, h3, stripE]
  | sam =>
    by_cases h : startsWith line (str "@") = true
    · simp [emitLine, strippedLine, h, stripE]
    · simp [emitLine, strippedLine, h, stripE_emitSAM]
  | vcf =>
    by_cases h : startsWith line (str "#") = true
    · simp [emitLine, strippedLine, h, stripE]
    · simp [emitLine, strippedLine, h, stripE_emitVCF]
  | unknown => simp [emitLine, strippedLine, stripE]

/-- C1 (counterexample): for the FASTA sequence line `"acgt"` under the
built-in `bright` scheme, removing the inserted styling from the pipeline
output does not give back the input line — the styled payload was
uppercased — even though the trace renders to exactly the pipeline
output. -/
theorem classifyAndStyle_not_byte_identical :
    stripE (emitLine (str "acgt") Format.fasta brightScheme) ≠ str "acgt"
    ∧ renderE (emitLine (str "acgt") Format.fasta brightScheme) =
        classifyAndStyle (str "acgt") Format.fasta brightScheme :=
  ⟨by decide, by decide⟩

/-- C1 (amended): for every input line, format and scheme, the emission
trace of the pipeline renders to exactly `classifyAndStyle`'s output, and
removing the inserted directive/reset writes from it yields the input
line with classified sequence payloads uppercased (`strippedLine`):
header lines, quality payloads, tab separators, field order and all
unclassified fields are byte-identical to the input. -/
theorem classifyAndStyle_roundtrip (line : Str) (format : Format)
    (c : ColorScheme) :
    renderE (emitLine line format c) = classifyAndStyle line format c
    ∧ stripE (emitLine line format c) = strippedLine line format :=
  ⟨renderE_emitLine line format c, stripE_emitLine line format c⟩
